import Mathlib

/-!
Verification development for the request-logging middleware of the frisbii
repository (file logmiddlware.go).

The Go code is shallowly embedded as follows.

* A LoggingResponseWriter is a record of the counters and flags the Go struct
  holds (status, wroteBytes, sentBytes, wrote) together with the request
  metadata it references and two observation traces: the list of log records
  emitted to the log writer, and the list of operations delegated to the real
  http.ResponseWriter sink.
* External nondeterminism (the wall clock, the byte count and error the real
  sink reports for a delegated write, the handles a hijacker returns) is passed
  in as explicit parameters.
* Go errors that support unwrapping are modelled by the inductive GoError:
  a chain of messages ending in a base error.
* fmt.Sprintf rendering of integers, the float64 division with two-decimal
  formatting, and strconv.Quote are modelled by executable functions over
  exact naturals and character lists (for runes at or above U+0080,
  strconv.Quote keeps printable runes and escapes the rest; the model escapes
  all of them, which only over-escapes characters that are never
  line-breaking and leaves every property stated below unchanged).
-/

/-- Immutable metadata of the incoming http.Request that the middleware reads:
remote address, method, URL and user agent. -/
structure HttpRequest where
  remoteAddr : String
  method : String
  url : String
  userAgent : String
deriving DecidableEq

/-- An operation delegated to the real underlying http.ResponseWriter sink:
a header write, a body write (with the count and error the sink reported),
or the error body produced by http.Error. -/
inductive SinkEvent where
  | writeHeader (status : Int)
  | write (b : String) (n : Nat) (e : Option String)
  | errorBody (status : Int) (body : String)
deriving DecidableEq

/-- One log record, with the ten fields that the Fprintf call in
LoggingResponseWriter.Log interpolates, in source order. -/
structure LogRec where
  timestamp : String
  remoteHost : String
  method : String
  url : String
  status : Int
  durationMs : Nat
  bytes : Nat
  ratio : String
  userAgent : String
  message : String
deriving DecidableEq

/-- State of a LoggingResponseWriter: the fields of the Go struct
(status, wroteBytes, sentBytes, wrote), the request it references, whether
the wrapped sink implements http.Hijacker, and the two observation traces. -/
structure LoggingResponseWriter where
  req : HttpRequest
  canHijack : Bool
  status : Int
  wroteBytes : Nat
  sentBytes : Nat
  wrote : Bool
  logRecs : List LogRec
  sinkEvents : List SinkEvent
deriving DecidableEq

/-- Models NewLoggingResponseWriter: zero counters, unset status, no output. -/
def NewLoggingResponseWriter (req : HttpRequest) (canHijack : Bool) : LoggingResponseWriter :=
  { req := req
    canHijack := canHijack
    status := 0
    wroteBytes := 0
    sentBytes := 0
    wrote := false
    logRecs := []
    sinkEvents := [] }

/-- The decimal digit character for a value below ten (as fmt's %d emits). -/
def digitChar : Nat → Char
  | 0 => '0'
  | 1 => '1'
  | 2 => '2'
  | 3 => '3'
  | 4 => '4'
  | 5 => '5'
  | 6 => '6'
  | 7 => '7'
  | 8 => '8'
  | 9 => '9'
  | _ + 10 => '0'

/-- Fuelled decimal rendering of a natural number, most significant digit
first; the fuel is always given as at least the number of digits. -/
def natReprAux : Nat → Nat → List Char
  | 0, _ => []
  | fuel + 1, n =>
    if n < 10 then [digitChar n]
    else natReprAux fuel (n / 10) ++ [digitChar (n % 10)]

/-- Decimal digits of a natural number. -/
def natReprChars (n : Nat) : List Char :=
  natReprAux (n + 1) n

/-- Models fmt's %d rendering of a non-negative integer. -/
def natRepr (n : Nat) : String :=
  ⟨natReprChars n⟩

/-- Models fmt's %d rendering of a Go int. -/
def intRepr (i : Int) : String :=
  if i < 0 then ⟨'-' :: natReprChars i.natAbs⟩ else ⟨natReprChars i.toNat⟩

/-- The lowercase hexadecimal digit character for a value below sixteen. -/
def hexDigitChar : Nat → Char
  | 0 => '0'
  | 1 => '1'
  | 2 => '2'
  | 3 => '3'
  | 4 => '4'
  | 5 => '5'
  | 6 => '6'
  | 7 => '7'
  | 8 => '8'
  | 9 => '9'
  | 10 => 'a'
  | 11 => 'b'
  | 12 => 'c'
  | 13 => 'd'
  | 14 => 'e'
  | 15 => 'f'
  | _ + 16 => '0'

/-- Two lowercase hex digits of a byte value. -/
def hex2 (n : Nat) : List Char :=
  [hexDigitChar (n / 16 % 16), hexDigitChar (n % 16)]

/-- Four lowercase hex digits. -/
def hex4 (n : Nat) : List Char :=
  [hexDigitChar (n / 4096 % 16), hexDigitChar (n / 256 % 16),
   hexDigitChar (n / 16 % 16), hexDigitChar (n % 16)]

/-- Eight lowercase hex digits. -/
def hex8 (n : Nat) : List Char :=
  hex4 (n / 65536) ++ hex4 (n % 65536)

/-- Hex escape of a rune as strconv.Quote renders it: two hex digits after
a backslash-x for ASCII, four after backslash-u below U+10000, eight after
backslash-U beyond. -/
def escHex (c : Char) : List Char :=
  if c.toNat < 0x80 then ['\\', 'x'] ++ hex2 c.toNat
  else if c.toNat < 0x10000 then ['\\', 'u'] ++ hex4 c.toNat
  else ['\\', 'U'] ++ hex8 c.toNat

/-- The single-letter escapes strconv.Quote uses for the seven C0 controls
that have them, falling back to a hex escape for every other escaped rune. -/
def escSpecial (c : Char) : List Char :=
  if c.toNat = 7 then ['\\', 'a']
  else if c.toNat = 8 then ['\\', 'b']
  else if c.toNat = 12 then ['\\', 'f']
  else if c = '\n' then ['\\', 'n']
  else if c.toNat = 13 then ['\\', 'r']
  else if c = '\t' then ['\\', 't']
  else if c.toNat = 11 then ['\\', 'v']
  else escHex c

/-- Models the per-rune escaping of strconv.Quote: quote and backslash get a
backslash, printable ASCII passes through, and everything else is escaped by
escSpecial (see the header note on over-escaping of runes above U+0080). -/
def quoteEscapeChar (c : Char) : List Char :=
  if c = '"' then ['\\', '"']
  else if c = '\\' then ['\\', '\\']
  else if 0x20 ≤ c.toNat ∧ c.toNat ≤ 0x7E then [c]
  else escSpecial c

/-- Models strconv.Quote: a double-quoted string with every character escaped
by quoteEscapeChar. -/
def goQuote (s : String) : String :=
  ⟨'"' :: (s.data.map quoteEscapeChar).flatten ++ ['"']⟩

/-- Rounds the exact quotient p / q to the nearest integer, with an exact
halfway value rounded to the even neighbour — the IEEE 754 and strconv tie
rule. -/
def roundTiesEven (p q : Nat) : Nat :=
  if 2 * (p % q) < q then p / q
  else if q < 2 * (p % q) then p / q + 1
  else if p / q % 2 = 0 then p / q else p / q + 1

/-- Fuelled floor of the base-two logarithm. -/
def log2Aux : Nat → Nat → Nat
  | 0, _ => 0
  | fuel + 1, n => if 2 ≤ n then log2Aux fuel (n / 2) + 1 else 0

/-- Floor of the base-two logarithm (zero below two); the fuel n covers every
halving step. -/
def natLog2 (n : Nat) : Nat :=
  log2Aux n n

/-- Models the conversion float64(a) of a non-negative Go int exactly: values
up to two to the 53rd are exact, larger ones are rounded to a 53-bit
significand with ties to even; the result is again an integer. -/
def fl64 (a : Nat) : Nat :=
  if a ≤ 2 ^ 53 then a
  else roundTiesEven a (2 ^ (natLog2 a - 52)) * 2 ^ (natLog2 a - 52)

/-- Models the IEEE binary64 division of the two (already converted) integer
operands exactly: the true quotient is scaled into the 53-bit significand
window, rounded to nearest with ties to even, and returned as an exact
dyadic rational, numerator over a power-of-two denominator. The quotients
arising from Go int counters lie well inside the normal range, so neither
overflow nor subnormals occur; the b = 0 case never reaches this function in
the program. -/
def divDouble (A B : Nat) : Nat × Nat :=
  let d := natLog2 A
  let e := natLog2 B
  let N := A * 2 ^ (e + 53)
  let D := B * 2 ^ d
  if D * 2 ^ 53 ≤ N then
    if d ≤ 52 + e then (roundTiesEven N (D * 2), 2 ^ (52 + e - d))
    else (roundTiesEven N (D * 2) * 2 ^ (d - (52 + e)), 1)
  else
    if d ≤ 53 + e then (roundTiesEven N D, 2 ^ (53 + e - d))
    else (roundTiesEven N D * 2 ^ (d - (53 + e)), 1)

/-- Models the two-decimal rendering Sprintf("%.2f", float64 a / float64 b)
used by CompressionRatio, computed exactly over the naturals: both operands
are rounded to binary64, the division is correctly rounded with ties to
even, and the exact binary value is rendered to hundredths with ties rounded
to the even last digit, as strconv does; printed as integer part, a dot, and
two digits. -/
def formatTwoDec (a b : Nat) : String :=
  let v := divDouble (fl64 a) (fl64 b)
  let h := roundTiesEven (100 * v.1) v.2
  ⟨natReprChars (h / 100) ++ ['.', digitChar (h / 10 % 10), digitChar (h % 10)]⟩

/-- Decides whether a string consists of one or more digits, a dot, and
exactly two digits — the shape d+.dd of a rendered ratio. -/
def matchesRatioFormat (s : String) : Bool :=
  match s.data.reverse with
  | d2 :: d1 :: dot :: rest =>
    d2.isDigit && d1.isDigit && (dot == '.') && !rest.isEmpty && rest.all Char.isDigit
  | _ => false

/-- Decides whether a string contains no newline character. -/
def noNewlineB (s : String) : Bool :=
  s.data.all fun c => !(c == '\n')

/-- Decides whether a string is exactly one line: it contains exactly one
newline and that newline is its last character. -/
def oneLineB (s : String) : Bool :=
  ((s.data.filter fun c => c == '\n').length == 1) && (s.data.getLast? == some '\n')

/-- The prefix of a character list before its first colon (the whole list when
no colon occurs). -/
def splitFirstColon : List Char → List Char
  | [] => []
  | c :: cs => if c = ':' then [] else c :: splitFirstColon cs

/-- Models taking element 0 of strings.Split(remoteAddr, ":") in Log (the
split with a nonempty separator always yields at least one piece, so the
guard len greater than zero in the source always holds): the prefix of the
address before its first colon. -/
def hostPart (s : String) : String :=
  ⟨splitFirstColon s.data⟩

/-- Modelled from the spec: the host-only form of an address, obtained by
stripping any trailing port suffix — everything after the last colon — and
leaving the host itself unchanged. -/
def stripPortSuffix (s : String) : String :=
  if s.data.contains ':' then
    ⟨((s.data.reverse.dropWhile fun c => c != ':').drop 1).reverse⟩
  else s

/-- The log record a Log call on this writer builds from its arguments and the
request metadata: host-only remote address, method, URL, the given status,
the duration converted to whole milliseconds, byte count, ratio string,
user agent and message. -/
def LoggingResponseWriter.mkLogRec (w : LoggingResponseWriter) (now : String)
    (status : Int) (durNs : Nat) (bytes : Nat) (ratio : String) (msg : String) : LogRec :=
  { timestamp := now
    remoteHost := hostPart w.req.remoteAddr
    method := w.req.method
    url := w.req.url
    status := status
    durationMs := durNs / 1000000
    bytes := bytes
    ratio := ratio
    userAgent := w.req.userAgent
    message := msg }

/-- Models the Fprintf format string of Log: the ten fields space-separated,
the URL in literal double quotes, user agent and message quoted by
strconv.Quote, and a trailing newline. -/
def renderRec (r : LogRec) : String :=
  r.timestamp ++ " " ++ r.remoteHost ++ " " ++ r.method ++ " \"" ++ r.url ++ "\" " ++
  intRepr r.status ++ " " ++ natRepr r.durationMs ++ " " ++ natRepr r.bytes ++ " " ++
  r.ratio ++ " " ++ goQuote r.userAgent ++ " " ++ goQuote r.message ++ "\n"

/-- Modelled from the spec: the documented line template
ts host method "url" status duration-ms bytes ratio-or-dash quoted-ua
quoted-message, assembled from already-rendered fields, ending in a newline. -/
def specLogLine (ts host mthd url statusF durF bytesF ratioF uaQ msgQ : String) : String :=
  ts ++ " " ++ host ++ " " ++ mthd ++ " \"" ++ url ++ "\" " ++ statusF ++ " " ++ durF ++
  " " ++ bytesF ++ " " ++ ratioF ++ " " ++ uaQ ++ " " ++ msgQ ++ "\n"

/-- Models LoggingResponseWriter.CompressionRatio: the dash sentinel when
either counter is zero or they are equal; otherwise wroteBytes divided by
sentBytes rendered to two decimals, demoted to the sentinel when that
rendering is 0.00. -/
def LoggingResponseWriter.compressionRatioStr (w : LoggingResponseWriter) : String :=
  if w.sentBytes = 0 ∨ w.wroteBytes = 0 ∨ w.wroteBytes = w.sentBytes then "-"
  else if formatTwoDec w.wroteBytes w.sentBytes = "0.00" then "-"
  else formatTwoDec w.wroteBytes w.sentBytes

/-- Models LoggingResponseWriter.Log: a no-op when wrote is already set;
otherwise sets wrote and appends one record built from the arguments (the
wall-clock timestamp is the oracle parameter now; the log writer's contents
are the rendered records, in order). -/
def LoggingResponseWriter.log (w : LoggingResponseWriter) (now : String) (status : Int)
    (durNs : Nat) (bytes : Nat) (ratio : String) (msg : String) : LoggingResponseWriter :=
  if w.wrote then w
  else
    { w with
      wrote := true
      logRecs := w.logRecs ++ [w.mkLogRec now status durNs bytes ratio msg] }

/-- A Go error value as seen through errors.Unwrap: either a base error with a
message and no further cause, or a wrapping error with its own message and an
inner cause. -/
inductive GoError where
  | base (msg : String)
  | wrap (msg : String) (inner : GoError)
deriving DecidableEq

/-- The Error() message of the error value itself. -/
def GoError.errMsg : GoError → String
  | .base m => m
  | .wrap m _ => m

/-- Models errors.Unwrap: the inner cause when there is one, otherwise none. -/
def GoError.unwrap : GoError → Option GoError
  | .base _ => none
  | .wrap _ e => some e

/-- Models the unwrap loop at the top of LogError: starting from the error's
own message, repeatedly replace it with the unwrapped error's message until
unwrapping yields nothing; the result is the innermost message. -/
def rootCauseMsg : GoError → String
  | .base m => m
  | .wrap _ e => rootCauseMsg e

/-- Modelled from the spec: the innermost error of the cause chain, the error
from which no further cause can be obtained. -/
def innermost : GoError → GoError
  | .base m => .base m
  | .wrap _ e => innermost e

/-- One error is reachable from another by iterating errors.Unwrap. -/
inductive UnwrapReaches : GoError → GoError → Prop
  | refl (e : GoError) : UnwrapReaches e e
  | step {a b c : GoError} : a.unwrap = some b → UnwrapReaches b c → UnwrapReaches a c

/-- Models LoggingResponseWriter.LogError: resolve the root-cause message,
log it with the given status, zero duration, zero bytes and the dash
sentinel, force the recorded status, and, only when no bytes were sent yet,
delegate an http.Error response (the quoted message with that status) to the
real sink. -/
def LoggingResponseWriter.logError (w : LoggingResponseWriter) (now : String)
    (status : Int) (err : GoError) : LoggingResponseWriter :=
  let msg := rootCauseMsg err
  let w1 := w.log now status 0 0 "-" msg
  let w2 := { w1 with status := status }
  if w2.sentBytes = 0 then
    { w2 with sinkEvents := w2.sinkEvents ++ [SinkEvent.errorBody status (goQuote msg)] }
  else w2

/-- Models LoggingResponseWriter.WriteHeader: record the status and delegate
the header write to the real sink. -/
def LoggingResponseWriter.writeHeader (w : LoggingResponseWriter) (status : Int) :
    LoggingResponseWriter :=
  { w with
    status := status
    sinkEvents := w.sinkEvents ++ [SinkEvent.writeHeader status] }

/-- Models LoggingResponseWriter.Write: default an unset status to 200,
delegate the write to the real sink (n and e are the count and error the
sink reports for this write), add the reported count to sentBytes, and
return the sink's result verbatim. -/
def LoggingResponseWriter.write (w : LoggingResponseWriter) (b : String) (n : Nat)
    (e : Option String) : LoggingResponseWriter × Nat × Option String :=
  let w1 := if w.status = 0 then { w with status := 200 } else w
  let w2 := { w1 with sinkEvents := w1.sinkEvents ++ [SinkEvent.write b n e] }
  ({ w2 with sentBytes := w2.sentBytes + n }, n, e)

/-- Models LoggingResponseWriter.Hijack: when the real sink implements
http.Hijacker, delegate and return its result (the connection and buffered
read-writer handles are opaque identifiers, and delegated is the triple the
hijacker returns); otherwise return no handles and the explicit error. -/
def LoggingResponseWriter.hijack (w : LoggingResponseWriter)
    (delegated : Option Nat × Option Nat × Option String) :
    Option Nat × Option Nat × Option String :=
  if w.canHijack then delegated
  else (none, none, some "http.Hijacker not implemented")

/-- How an invocation of the downstream handler hands control back to
ServeHTTP: a normal return, or an abrupt propagating failure (panic). In
either case the handler leaves the writer in some final state. -/
inductive Outcome where
  | normal (w : LoggingResponseWriter)
  | abrupt (w : LoggingResponseWriter)
deriving DecidableEq

/-- The writer state an outcome carries. -/
def Outcome.state : Outcome → LoggingResponseWriter
  | .normal w => w
  | .abrupt w => w

/-- Whether the outcome is a propagating failure. -/
def Outcome.isAbrupt : Outcome → Bool
  | .normal _ => false
  | .abrupt _ => true

/-- Models LogMiddleware.ServeHTTP: build a fresh LoggingResponseWriter, run
the downstream handler on it, and — by the deferred call, on the normal and
on the panicking path alike — invoke Log with the writer's current status,
the elapsed time (the oracle parameter elapsedNs), its sentBytes and its
compression ratio, before control returns upward; a panic still propagates
after the deferred call, so the outcome kind is preserved. -/
def LogMiddleware.serveHTTP (req : HttpRequest) (canHijack : Bool)
    (handler : LoggingResponseWriter → Outcome) (now : String) (elapsedNs : Nat) : Outcome :=
  let w0 := NewLoggingResponseWriter req canHijack
  match handler w0 with
  | .normal w1 =>
    .normal (w1.log now w1.status elapsedNs w1.sentBytes w1.compressionRatioStr "")
  | .abrupt w1 =>
    .abrupt (w1.log now w1.status elapsedNs w1.sentBytes w1.compressionRatioStr "")

/-- One public operation on a LoggingResponseWriter, with the oracle data each
one consumes (Hijack does not change the writer's state). -/
inductive LrwOp where
  | opWriteHeader (status : Int)
  | opWrite (b : String) (n : Nat) (e : Option String)
  | opLog (now : String) (status : Int) (durNs : Nat) (bytes : Nat) (ratio msg : String)
  | opLogError (now : String) (status : Int) (err : GoError)
  | opHijack
deriving DecidableEq

/-- The state transition of one public operation. -/
def LoggingResponseWriter.step (w : LoggingResponseWriter) : LrwOp → LoggingResponseWriter
  | .opWriteHeader st => w.writeHeader st
  | .opWrite b n e => (w.write b n e).1
  | .opLog now st d byt ratio msg => w.log now st d byt ratio msg
  | .opLogError now st err => w.logError now st err
  | .opHijack => w

/-- The state after a sequence of public operations. -/
def LoggingResponseWriter.applyOps (w : LoggingResponseWriter) (ops : List LrwOp) :
    LoggingResponseWriter :=
  ops.foldl LoggingResponseWriter.step w

/-- A concrete writer state used to exercise the ratio rendering: one byte
produced by the handler, two sent on the wire. -/
def ratioDemoWriter : LoggingResponseWriter :=
  { req := { remoteAddr := "a", method := "b", url := "c", userAgent := "d" }
    canHijack := false
    status := 200
    wroteBytes := 1
    sentBytes := 2
    wrote := false
    logRecs := []
    sinkEvents := [] }

/-- A concrete request whose remote address is a bracketed IPv6 address with a
port. -/
def reqV6 : HttpRequest :=
  { remoteAddr := "[2001:db8::1]:443", method := "GET", url := "/x", userAgent := "ua" }

/-- A concrete log record whose user agent and message contain quotes,
backslashes and newlines, used to exercise the single-line rendering. -/
def demoLogRec : LogRec :=
  { timestamp := "2026-01-01T00:00:00Z"
    remoteHost := "1.2.3.4"
    method := "GET"
    url := "/x"
    status := 200
    durationMs := 3
    bytes := 100
    ratio := "-"
    userAgent := "agent \"v1\"\n"
    message := "a\\b\nc" }

/-! Helper lemmas about the rendering primitives. -/

theorem data_mk (l : List Char) : (String.mk l).data = l := rfl

theorem mk_data (s : String) : String.mk s.data = s := by
  cases s
  rfl

theorem data_append (a b : String) : (a ++ b).data = a.data ++ b.data := by
  cases a
  cases b
  rfl

theorem digitChar_isDigit (n : Nat) : (digitChar n).isDigit = true := by
  unfold digitChar
  split <;> decide

theorem hexDigitChar_printable (n : Nat) :
    0x20 ≤ (hexDigitChar n).toNat ∧ (hexDigitChar n).toNat ≤ 0x7E := by
  unfold hexDigitChar
  split <;> decide

theorem natReprAux_digits (f : Nat) : ∀ (n : Nat), ∀ c ∈ natReprAux f n, c.isDigit = true := by
  induction f with
  | zero =>
    intro n c hc
    simp [natReprAux] at hc
  | succ f ih =>
    intro n c hc
    unfold natReprAux at hc
    by_cases h : n < 10
    · simp [h] at hc
      subst hc
      exact digitChar_isDigit n
    · simp [h] at hc
      rcases hc with hc | hc
      · exact ih _ c hc
      · subst hc
        exact digitChar_isDigit _

theorem natReprChars_digits (n : Nat) : ∀ c ∈ natReprChars n, c.isDigit = true :=
  natReprAux_digits (n + 1) n

theorem natReprAux_ne_nil (f n : Nat) : natReprAux (f + 1) n ≠ [] := by
  unfold natReprAux
  by_cases h : n < 10 <;> simp [h]

theorem natReprChars_ne_nil (n : Nat) : natReprChars n ≠ [] :=
  natReprAux_ne_nil n n

theorem isDigit_ne_newline {c : Char} (h : c.isDigit = true) : ¬ c = '\n' := by
  intro e
  subst e
  exact absurd h (by decide)

theorem printable_ne_newline {c : Char} (h : 0x20 ≤ c.toNat) : ¬ c = '\n' := by
  intro e
  subst e
  exact absurd h (by decide)

theorem escHex_printable (c : Char) :
    ∀ x ∈ escHex c, 0x20 ≤ x.toNat ∧ x.toNat ≤ 0x7E := by
  intro x hx
  unfold escHex at hx
  repeat' split at hx
  all_goals simp [hex2, hex4, hex8] at hx
  all_goals
    rcases hx with rfl | rfl | hx
  all_goals first
    | decide
    | (repeat' rcases hx with rfl | hx)
  all_goals first
    | exact hexDigitChar_printable _
    | (subst hx; exact hexDigitChar_printable _)

theorem escSpecial_printable (c : Char) :
    ∀ x ∈ escSpecial c, 0x20 ≤ x.toNat ∧ x.toNat ≤ 0x7E := by
  intro x hx
  unfold escSpecial at hx
  repeat' split at hx
  all_goals first
    | exact escHex_printable c x hx
    | (simp at hx; rcases hx with rfl | rfl <;> decide)

theorem quoteEscapeChar_printable (c : Char) :
    ∀ x ∈ quoteEscapeChar c, 0x20 ≤ x.toNat ∧ x.toNat ≤ 0x7E := by
  intro x hx
  unfold quoteEscapeChar at hx
  repeat' split at hx
  · simp at hx
    rcases hx with rfl | rfl <;> decide
  · simp at hx
    rcases hx with rfl | rfl <;> decide
  · simp at hx
    subst hx
    assumption
  · exact escSpecial_printable c x hx

theorem goQuote_printable (s : String) :
    ∀ x ∈ (goQuote s).data, 0x20 ≤ x.toNat ∧ x.toNat ≤ 0x7E := by
  intro x hx
  unfold goQuote at hx
  rw [data_mk] at hx
  simp [List.mem_flatten, List.mem_map] at hx
  rcases hx with rfl | ⟨a, _, hxa⟩ | rfl
  · decide
  · exact quoteEscapeChar_printable a x hxa
  · decide

theorem noNL_goQuote (s : String) : noNewlineB (goQuote s) = true := by
  unfold noNewlineB
  rw [List.all_eq_true]
  intro c hc
  have h := (goQuote_printable s c hc).1
  simp only [Bool.not_eq_true', beq_eq_false_iff_ne]
  exact printable_ne_newline h

theorem noNL_natRepr (n : Nat) : noNewlineB (natRepr n) = true := by
  unfold noNewlineB natRepr
  rw [data_mk, List.all_eq_true]
  intro c hc
  simp only [Bool.not_eq_true', beq_eq_false_iff_ne]
  exact isDigit_ne_newline (natReprChars_digits n c hc)

theorem noNL_intRepr (i : Int) : noNewlineB (intRepr i) = true := by
  unfold noNewlineB intRepr
  by_cases h : i < 0 <;> simp only [h, if_true, if_false, data_mk, List.all_eq_true] <;>
    intro c hc
  · simp only [List.mem_cons] at hc
    rcases hc with rfl | hc
    · decide
    · simp only [Bool.not_eq_true', beq_eq_false_iff_ne]
      exact isDigit_ne_newline (natReprChars_digits _ c hc)
  · simp only [Bool.not_eq_true', beq_eq_false_iff_ne]
    exact isDigit_ne_newline (natReprChars_digits _ c hc)

theorem noNL_append (a b : String) (ha : noNewlineB a = true) (hb : noNewlineB b = true) :
    noNewlineB (a ++ b) = true := by
  unfold noNewlineB at *
  rw [data_append, List.all_append, ha, hb]
  rfl

theorem noNL_append_eq (a b : String) :
    noNewlineB (a ++ b) = (noNewlineB a && noNewlineB b) := by
  unfold noNewlineB
  rw [data_append, List.all_append]

theorem matchesRatioFormat_render (x y z : Nat) :
    matchesRatioFormat ⟨natReprChars x ++ ['.', digitChar y, digitChar z]⟩ = true := by
  unfold matchesRatioFormat
  rw [data_mk]
  rw [show (['.', digitChar y, digitChar z] : List Char)
      = ['.'] ++ [digitChar y, digitChar z] from rfl]
  rw [← List.append_assoc, List.reverse_append, List.reverse_append]
  simp only [List.reverse_cons, List.reverse_nil, List.nil_append, List.cons_append,
    List.append_nil]
  simp only [Bool.and_eq_true]
  refine ⟨⟨⟨⟨digitChar_isDigit _, digitChar_isDigit _⟩, by decide⟩, ?_⟩, ?_⟩
  · rw [Bool.not_eq_true']
    obtain ⟨w, ws, he⟩ :=
      List.exists_cons_of_ne_nil
        (fun e => natReprChars_ne_nil x (List.reverse_eq_nil_iff.mp e))
    rw [he]
    rfl
  · rw [List.all_eq_true]
    intro c hc
    rw [List.mem_reverse] at hc
    exact natReprChars_digits _ c hc

theorem matchesRatioFormat_formatTwoDec (a b : Nat) :
    matchesRatioFormat (formatTwoDec a b) = true := by
  unfold formatTwoDec
  exact matchesRatioFormat_render _ _ _

theorem formatTwoDec_ne_dash (a b : Nat) : formatTwoDec a b ≠ "-" := by
  intro h
  have hm := matchesRatioFormat_formatTwoDec a b
  rw [h] at hm
  exact absurd hm (by decide)

theorem oneLineB_of_noNL (a : String) (ha : noNewlineB a = true) :
    oneLineB (a ++ "\n") = true := by
  unfold oneLineB
  rw [data_append]
  rw [show ("\n" : String).data = ['\n'] from rfl]
  unfold noNewlineB at ha
  rw [List.all_eq_true] at ha
  have hfil : a.data.filter (fun c => c == '\n') = [] := by
    rw [List.filter_eq_nil_iff]
    intro c hc
    have := ha c hc
    simpa using this
  rw [Bool.and_eq_true]
  constructor
  · rw [List.filter_append, hfil]
    rfl
  · rw [List.getLast?_concat]
    rfl

theorem splitFirstColon_no_colon (l : List Char) (h : ':' ∉ l) : splitFirstColon l = l := by
  induction l with
  | nil => rfl
  | cons c cs ih =>
    unfold splitFirstColon
    have hc : ¬ c = ':' := fun e => h (e ▸ List.mem_cons_self c cs)
    rw [if_neg hc, ih (fun hm => h (List.mem_cons_of_mem c hm))]

theorem splitFirstColon_before (l r : List Char) (h : ':' ∉ l) :
    splitFirstColon (l ++ ':' :: r) = l := by
  induction l with
  | nil =>
    unfold splitFirstColon
    simp
  | cons c cs ih =>
    have hc : ¬ c = ':' := fun e => h (e ▸ List.mem_cons_self c cs)
    rw [List.cons_append]
    rw [splitFirstColon, if_neg hc, ih (fun hm => h (List.mem_cons_of_mem c hm))]

/-! Helper lemmas about the writer operations. -/

theorem log_wrote (w : LoggingResponseWriter) (now : String) (st : Int) (d byt : Nat)
    (ratio msg : String) : (w.log now st d byt ratio msg).wrote = true := by
  unfold LoggingResponseWriter.log
  by_cases h : w.wrote <;> simp [h]

theorem log_of_wrote (w : LoggingResponseWriter) (now : String) (st : Int) (d byt : Nat)
    (ratio msg : String) (h : w.wrote = true) : w.log now st d byt ratio msg = w := by
  unfold LoggingResponseWriter.log
  rw [if_pos h]

theorem log_of_not_wrote (w : LoggingResponseWriter) (now : String) (st : Int) (d byt : Nat)
    (ratio msg : String) (h : w.wrote = false) :
    (w.log now st d byt ratio msg).logRecs
      = w.logRecs ++ [w.mkLogRec now st d byt ratio msg] := by
  unfold LoggingResponseWriter.log
  rw [if_neg (by rw [h]; exact Bool.false_ne_true)]

theorem log_status (w : LoggingResponseWriter) (now : String) (st : Int) (d byt : Nat)
    (ratio msg : String) : (w.log now st d byt ratio msg).status = w.status := by
  unfold LoggingResponseWriter.log
  by_cases h : w.wrote <;> simp [h]

theorem log_sentBytes (w : LoggingResponseWriter) (now : String) (st : Int) (d byt : Nat)
    (ratio msg : String) : (w.log now st d byt ratio msg).sentBytes = w.sentBytes := by
  unfold LoggingResponseWriter.log
  by_cases h : w.wrote <;> simp [h]

theorem log_wroteBytes (w : LoggingResponseWriter) (now : String) (st : Int) (d byt : Nat)
    (ratio msg : String) : (w.log now st d byt ratio msg).wroteBytes = w.wroteBytes := by
  unfold LoggingResponseWriter.log
  by_cases h : w.wrote <;> simp [h]

theorem log_sinkEvents (w : LoggingResponseWriter) (now : String) (st : Int) (d byt : Nat)
    (ratio msg : String) : (w.log now st d byt ratio msg).sinkEvents = w.sinkEvents := by
  unfold LoggingResponseWriter.log
  by_cases h : w.wrote <;> simp [h]

theorem log_req (w : LoggingResponseWriter) (now : String) (st : Int) (d byt : Nat)
    (ratio msg : String) : (w.log now st d byt ratio msg).req = w.req := by
  unfold LoggingResponseWriter.log
  by_cases h : w.wrote <;> simp [h]

theorem log_logRecs_of_wrote (w : LoggingResponseWriter) (now : String) (st : Int)
    (d byt : Nat) (ratio msg : String) (h : w.wrote = true) :
    (w.log now st d byt ratio msg).logRecs = w.logRecs := by
  rw [log_of_wrote w now st d byt ratio msg h]

theorem logError_eq_branches (w : LoggingResponseWriter) (now : String) (st : Int)
    (e : GoError) :
    (w.sentBytes = 0 →
      w.logError now st e
        = { w.log now st 0 0 "-" (rootCauseMsg e) with
            status := st
            sinkEvents := (w.log now st 0 0 "-" (rootCauseMsg e)).sinkEvents
              ++ [SinkEvent.errorBody st (goQuote (rootCauseMsg e))] })
    ∧ (¬ w.sentBytes = 0 →
      w.logError now st e
        = { w.log now st 0 0 "-" (rootCauseMsg e) with status := st }) := by
  unfold LoggingResponseWriter.logError
  constructor
  · intro h0
    rw [if_pos]
    show (w.log now st 0 0 "-" (rootCauseMsg e)).sentBytes = 0
    rw [log_sentBytes]
    exact h0
  · intro h0
    rw [if_neg]
    intro hc
    have hc2 : (w.log now st 0 0 "-" (rootCauseMsg e)).sentBytes = 0 := hc
    rw [log_sentBytes] at hc2
    exact h0 hc2

theorem logError_status (w : LoggingResponseWriter) (now : String) (st : Int) (e : GoError) :
    (w.logError now st e).status = st := by
  by_cases h : w.sentBytes = 0
  · rw [(logError_eq_branches w now st e).1 h]
  · rw [(logError_eq_branches w now st e).2 h]

theorem logError_sentBytes (w : LoggingResponseWriter) (now : String) (st : Int)
    (e : GoError) : (w.logError now st e).sentBytes = w.sentBytes := by
  by_cases h : w.sentBytes = 0
  · rw [(logError_eq_branches w now st e).1 h]
    exact log_sentBytes w now st 0 0 "-" (rootCauseMsg e)
  · rw [(logError_eq_branches w now st e).2 h]
    exact log_sentBytes w now st 0 0 "-" (rootCauseMsg e)

theorem logError_wroteBytes (w : LoggingResponseWriter) (now : String) (st : Int)
    (e : GoError) : (w.logError now st e).wroteBytes = w.wroteBytes := by
  by_cases h : w.sentBytes = 0
  · rw [(logError_eq_branches w now st e).1 h]
    exact log_wroteBytes w now st 0 0 "-" (rootCauseMsg e)
  · rw [(logError_eq_branches w now st e).2 h]
    exact log_wroteBytes w now st 0 0 "-" (rootCauseMsg e)

theorem logError_logRecs (w : LoggingResponseWriter) (now : String) (st : Int)
    (e : GoError) :
    (w.logError now st e).logRecs = (w.log now st 0 0 "-" (rootCauseMsg e)).logRecs := by
  by_cases h : w.sentBytes = 0
  · rw [(logError_eq_branches w now st e).1 h]
  · rw [(logError_eq_branches w now st e).2 h]

theorem logError_wrote (w : LoggingResponseWriter) (now : String) (st : Int)
    (e : GoError) :
    (w.logError now st e).wrote = (w.log now st 0 0 "-" (rootCauseMsg e)).wrote := by
  by_cases h : w.sentBytes = 0
  · rw [(logError_eq_branches w now st e).1 h]
  · rw [(logError_eq_branches w now st e).2 h]

theorem logError_sinkEvents_zero (w : LoggingResponseWriter) (now : String) (st : Int)
    (e : GoError) (h : w.sentBytes = 0) :
    (w.logError now st e).sinkEvents
      = w.sinkEvents ++ [SinkEvent.errorBody st (goQuote (rootCauseMsg e))] := by
  rw [(logError_eq_branches w now st e).1 h]
  show (w.log now st 0 0 "-" (rootCauseMsg e)).sinkEvents
      ++ [SinkEvent.errorBody st (goQuote (rootCauseMsg e))]
    = w.sinkEvents ++ [SinkEvent.errorBody st (goQuote (rootCauseMsg e))]
  rw [log_sinkEvents]

theorem logError_sinkEvents_nonzero (w : LoggingResponseWriter) (now : String) (st : Int)
    (e : GoError) (h : ¬ w.sentBytes = 0) :
    (w.logError now st e).sinkEvents = w.sinkEvents := by
  rw [(logError_eq_branches w now st e).2 h]
  exact log_sinkEvents w now st 0 0 "-" (rootCauseMsg e)

theorem write_eq_branches (w : LoggingResponseWriter) (b : String) (n : Nat)
    (e : Option String) :
    (w.status = 0 →
      w.write b n e
        = ({ w with
              status := 200
              sentBytes := w.sentBytes + n
              sinkEvents := w.sinkEvents ++ [SinkEvent.write b n e] }, n, e))
    ∧ (¬ w.status = 0 →
      w.write b n e
        = ({ w with
              sentBytes := w.sentBytes + n
              sinkEvents := w.sinkEvents ++ [SinkEvent.write b n e] }, n, e)) := by
  unfold LoggingResponseWriter.write
  constructor
  · intro h0
    rw [if_pos h0]
  · intro h0
    rw [if_neg h0]

theorem write_fst_fields (w : LoggingResponseWriter) (b : String) (n : Nat)
    (e : Option String) :
    (w.write b n e).1.sentBytes = w.sentBytes + n
    ∧ (w.write b n e).1.wroteBytes = w.wroteBytes
    ∧ (w.write b n e).1.logRecs = w.logRecs
    ∧ (w.write b n e).1.wrote = w.wrote
    ∧ (w.write b n e).1.sinkEvents = w.sinkEvents ++ [SinkEvent.write b n e] := by
  by_cases h : w.status = 0
  · rw [(write_eq_branches w b n e).1 h]
    exact ⟨rfl, rfl, rfl, rfl, rfl⟩
  · rw [(write_eq_branches w b n e).2 h]
    exact ⟨rfl, rfl, rfl, rfl, rfl⟩

theorem writeHeader_fields (w : LoggingResponseWriter) (st : Int) :
    (w.writeHeader st).status = st
    ∧ (w.writeHeader st).sentBytes = w.sentBytes
    ∧ (w.writeHeader st).wroteBytes = w.wroteBytes
    ∧ (w.writeHeader st).logRecs = w.logRecs
    ∧ (w.writeHeader st).wrote = w.wrote :=
  ⟨rfl, rfl, rfl, rfl, rfl⟩

/-- The invariant behind at-most-once logging: the record list never exceeds
one element, and is still empty while the wrote flag is unset. -/
def logInv (w : LoggingResponseWriter) : Prop :=
  w.logRecs.length ≤ 1 ∧ (w.wrote = false → w.logRecs = [])

theorem logInv_log (w : LoggingResponseWriter) (now : String) (st : Int) (d byt : Nat)
    (ratio msg : String) (h : logInv w) : logInv (w.log now st d byt ratio msg) := by
  rcases h with ⟨h1, h2⟩
  by_cases hw : w.wrote
  · rw [log_of_wrote w now st d byt ratio msg hw]
    exact ⟨h1, h2⟩
  · have hw0 : w.wrote = false := Bool.not_eq_true _ ▸ Bool.of_not_eq_true hw
    constructor
    · rw [log_of_not_wrote w now st d byt ratio msg hw0, h2 hw0]
      simp
    · intro hcontra
      rw [log_wrote] at hcontra
      exact absurd hcontra (by decide)

theorem logInv_step (w : LoggingResponseWriter) (op : LrwOp) (h : logInv w) :
    logInv (w.step op) := by
  cases op with
  | opWriteHeader st =>
    rcases h with ⟨h1, h2⟩
    exact ⟨h1, h2⟩
  | opWrite b n e =>
    rcases h with ⟨h1, h2⟩
    have hf := write_fst_fields w b n e
    show logInv ((w.write b n e).1)
    rw [logInv, hf.2.2.1, hf.2.2.2.1]
    exact ⟨h1, h2⟩
  | opLog now st d byt ratio msg => exact logInv_log w now st d byt ratio msg h
  | opLogError now st err =>
    show logInv (w.logError now st err)
    have hl := logInv_log w now st 0 0 "-" (rootCauseMsg err) h
    rw [logInv, logError_logRecs, logError_wrote]
    exact hl
  | opHijack => exact h

theorem logInv_applyOps (ops : List LrwOp) :
    ∀ w : LoggingResponseWriter, logInv w → logInv (w.applyOps ops) := by
  induction ops with
  | nil => intro w h; exact h
  | cons op rest ih =>
    intro w h
    exact ih (w.step op) (logInv_step w op h)

theorem step_wroteBytes (w : LoggingResponseWriter) (op : LrwOp) :
    (w.step op).wroteBytes = w.wroteBytes := by
  cases op with
  | opWriteHeader st => rfl
  | opWrite b n e => exact (write_fst_fields w b n e).2.1
  | opLog now st d byt ratio msg => exact log_wroteBytes w now st d byt ratio msg
  | opLogError now st err => exact logError_wroteBytes w now st err
  | opHijack => rfl

theorem applyOps_wroteBytes (ops : List LrwOp) :
    ∀ w : LoggingResponseWriter, (w.applyOps ops).wroteBytes = w.wroteBytes := by
  induction ops with
  | nil => intro w; rfl
  | cons op rest ih =>
    intro w
    show ((w.step op).applyOps rest).wroteBytes = w.wroteBytes
    rw [ih (w.step op), step_wroteBytes]

theorem compressionRatio_of_wroteBytes_zero (w : LoggingResponseWriter)
    (h : w.wroteBytes = 0) : w.compressionRatioStr = "-" := by
  unfold LoggingResponseWriter.compressionRatioStr
  rw [if_pos (Or.inr (Or.inl h))]

/-! Helper lemmas about the error cause chain. -/

theorem unwrapReaches_innermost (e : GoError) : UnwrapReaches e (innermost e) := by
  induction e with
  | base m => exact UnwrapReaches.refl _
  | wrap m i ih => exact UnwrapReaches.step rfl ih

theorem innermost_unwrap_none (e : GoError) : (innermost e).unwrap = none := by
  induction e with
  | base m => rfl
  | wrap m i ih => exact ih

theorem rootCauseMsg_eq_innermost (e : GoError) :
    rootCauseMsg e = (innermost e).errMsg := by
  induction e with
  | base m => rfl
  | wrap m i ih => exact ih

/-! The claims. -/

/-- C1: For every request handled by LogMiddleware, at most one log record is
ever written to the log sink, no matter how many times Log or LogError are
invoked on the request's LoggingResponseWriter: the first Log call sets the
wrote flag and emits one record, and every later Log call is a no-op. -/
theorem log_at_most_once (req : HttpRequest) (ch : Bool) (ops : List LrwOp)
    (w : LoggingResponseWriter) (now : String) (st : Int) (d byt : Nat)
    (ratio msg : String) :
    ((NewLoggingResponseWriter req ch).applyOps ops).logRecs.length ≤ 1
    ∧ (w.wrote = false →
        (w.log now st d byt ratio msg).logRecs
          = w.logRecs ++ [w.mkLogRec now st d byt ratio msg]
        ∧ (w.log now st d byt ratio msg).wrote = true)
    ∧ (w.wrote = true → w.log now st d byt ratio msg = w) := by
  refine ⟨?_, ?_, ?_⟩
  · exact (logInv_applyOps ops (NewLoggingResponseWriter req ch)
      ⟨Nat.zero_le 1, fun _ => rfl⟩).1
  · intro h
    exact ⟨log_of_not_wrote w now st d byt ratio msg h, log_wrote w now st d byt ratio msg⟩
  · exact log_of_wrote w now st d byt ratio msg

/-- Witness for C1 at a concrete request, a triple-logging operation list, and
a fresh writer. -/
theorem log_at_most_once_witness :
    ((NewLoggingResponseWriter ⟨"1.2.3.4:80", "GET", "/x", "ua"⟩ false).applyOps
        [LrwOp.opLog "t1" 200 0 0 "-" "", LrwOp.opLog "t2" 404 0 0 "-" "x",
         LrwOp.opLogError "t3" 500 (GoError.base "boom")]).logRecs.length ≤ 1
    ∧ ((NewLoggingResponseWriter ⟨"1.2.3.4:80", "GET", "/x", "ua"⟩ false).log
          "t1" 200 0 0 "-" "").logRecs
        = [] ++ [(NewLoggingResponseWriter ⟨"1.2.3.4:80", "GET", "/x", "ua"⟩ false).mkLogRec
            "t1" 200 0 0 "-" ""] := by
  have h := log_at_most_once ⟨"1.2.3.4:80", "GET", "/x", "ua"⟩ false
    [LrwOp.opLog "t1" 200 0 0 "-" "", LrwOp.opLog "t2" 404 0 0 "-" "x",
     LrwOp.opLogError "t3" 500 (GoError.base "boom")]
    (NewLoggingResponseWriter ⟨"1.2.3.4:80", "GET", "/x", "ua"⟩ false) "t1" 200 0 0 "-" ""
  exact ⟨h.1, (h.2.1 rfl).1⟩

/-- C3: For every call to Write on a LoggingResponseWriter whose recorded
status is 0, the recorded status is set to 200 before bytes are counted
(otherwise it is untouched); the write is delegated to the real sink, the
count the sink reports is added to sentBytes, and the sink's pair (n, err) is
returned verbatim, including when err is non-nil. -/
theorem write_spec (w : LoggingResponseWriter) (b : String) (n : Nat) (e : Option String)
    (w2 : LoggingResponseWriter) (r : Nat × Option String)
    (hw : (w2, r) = w.write b n e) :
    (w.status = 0 → w2.status = 200)
    ∧ (¬ w.status = 0 → w2.status = w.status)
    ∧ w2.sentBytes = w.sentBytes + n
    ∧ w2.sinkEvents = w.sinkEvents ++ [SinkEvent.write b n e]
    ∧ r = (n, e)
    ∧ w2.wroteBytes = w.wroteBytes
    ∧ w2.logRecs = w.logRecs
    ∧ w2.wrote = w.wrote := by
  by_cases h : w.status = 0
  · rw [(write_eq_branches w b n e).1 h] at hw
    injection hw with hw1 hw2
    subst hw1
    subst hw2
    exact ⟨fun _ => rfl, fun hc => absurd h hc, rfl, rfl, rfl, rfl, rfl, rfl⟩
  · rw [(write_eq_branches w b n e).2 h] at hw
    injection hw with hw1 hw2
    subst hw1
    subst hw2
    exact ⟨fun hc => absurd hc h, fun _ => rfl, rfl, rfl, rfl, rfl, rfl, rfl⟩

/-- Witness for C3: a 5-byte write on a fresh writer defaults the status to
200, counts 5 sent bytes, and returns the sink's result verbatim. -/
theorem write_spec_witness :
    ((NewLoggingResponseWriter ⟨"a:1", "GET", "/", "u"⟩ false).write "hello" 5 none).1.status
        = 200
    ∧ ((NewLoggingResponseWriter ⟨"a:1", "GET", "/", "u"⟩ false).write
          "hello" 5 none).1.sentBytes
        = (NewLoggingResponseWriter ⟨"a:1", "GET", "/", "u"⟩ false).sentBytes + 5
    ∧ ((NewLoggingResponseWriter ⟨"a:1", "GET", "/", "u"⟩ false).write "hello" 5 none).2
        = (5, none) := by
  have h := write_spec (NewLoggingResponseWriter ⟨"a:1", "GET", "/", "u"⟩ false) "hello" 5 none
    ((NewLoggingResponseWriter ⟨"a:1", "GET", "/", "u"⟩ false).write "hello" 5 none).1
    ((NewLoggingResponseWriter ⟨"a:1", "GET", "/", "u"⟩ false).write "hello" 5 none).2 rfl
  exact ⟨h.1 rfl, h.2.2.1, h.2.2.2.2.1⟩

/-- C4: CompressionRatio returns the dash sentinel exactly when sentBytes is
0, or wroteBytes is 0, or the counters are equal, or the two-decimal
rendering of wroteBytes divided by sentBytes would be 0.00; otherwise it
returns that rendering, a string of one or more digits, a dot, and two
digits. -/
theorem compressionRatio_cases (w : LoggingResponseWriter) :
    (w.compressionRatioStr = "-" ↔
      w.sentBytes = 0 ∨ w.wroteBytes = 0 ∨ w.wroteBytes = w.sentBytes
        ∨ formatTwoDec w.wroteBytes w.sentBytes = "0.00")
    ∧ (¬ w.compressionRatioStr = "-" →
        w.compressionRatioStr = formatTwoDec w.wroteBytes w.sentBytes
        ∧ matchesRatioFormat w.compressionRatioStr = true) := by
  unfold LoggingResponseWriter.compressionRatioStr
  by_cases h1 : w.sentBytes = 0 ∨ w.wroteBytes = 0 ∨ w.wroteBytes = w.sentBytes
  · rw [if_pos h1]
    constructor
    · constructor
      · intro _
        rcases h1 with h | h | h
        · exact Or.inl h
        · exact Or.inr (Or.inl h)
        · exact Or.inr (Or.inr (Or.inl h))
      · intro _
        rfl
    · intro hne
      exact absurd rfl hne
  · rw [if_neg h1]
    by_cases h2 : formatTwoDec w.wroteBytes w.sentBytes = "0.00"
    · rw [if_pos h2]
      constructor
      · exact ⟨fun _ => Or.inr (Or.inr (Or.inr h2)), fun _ => rfl⟩
      · intro hne
        exact absurd rfl hne
    · rw [if_neg h2]
      constructor
      · constructor
        · intro hdash
          exact absurd hdash (formatTwoDec_ne_dash _ _)
        · intro hr
          rcases hr with h | h | h | h
          · exact absurd (Or.inl h) h1
          · exact absurd (Or.inr (Or.inl h)) h1
          · exact absurd (Or.inr (Or.inr h)) h1
          · exact absurd h h2
      · intro _
        exact ⟨rfl, matchesRatioFormat_formatTwoDec _ _⟩

/-- Witness for C4 on a writer with one byte produced and two sent: the ratio
is not the sentinel, equals the rendered quotient, and has the shape of one or
more digits, a dot, and two digits. -/
theorem compressionRatio_cases_witness :
    ¬ ratioDemoWriter.compressionRatioStr = "-"
    ∧ ratioDemoWriter.compressionRatioStr = formatTwoDec 1 2
    ∧ matchesRatioFormat ratioDemoWriter.compressionRatioStr = true := by
  have h := compressionRatio_cases ratioDemoWriter
  have hne := h.2 (by decide)
  exact ⟨by decide, hne.1, hne.2⟩

/-- C7: Hijack on a LoggingResponseWriter whose sink does not implement
http.Hijacker returns no connection and no buffered handles together with the
explicit not-implemented error; when the sink does implement it, Hijack
delegates and returns the sink's result. -/
theorem hijack_spec (w : LoggingResponseWriter)
    (delegated : Option Nat × Option Nat × Option String) :
    (w.canHijack = false →
      w.hijack delegated = (none, none, some "http.Hijacker not implemented"))
    ∧ (w.canHijack = true → w.hijack delegated = delegated) := by
  unfold LoggingResponseWriter.hijack
  constructor
  · intro h
    simp [h]
  · intro h
    simp [h]

/-- Witness for C7: a non-hijackable writer yields the explicit error and no
handles; a hijackable one returns the delegate's triple. -/
theorem hijack_spec_witness :
    (NewLoggingResponseWriter ⟨"a", "b", "c", "d"⟩ false).hijack (some 1, some 2, none)
        = (none, none, some "http.Hijacker not implemented")
    ∧ (NewLoggingResponseWriter ⟨"a", "b", "c", "d"⟩ true).hijack (some 1, some 2, none)
        = (some 1, some 2, none) :=
  ⟨(hijack_spec (NewLoggingResponseWriter ⟨"a", "b", "c", "d"⟩ false)
      (some 1, some 2, none)).1 rfl,
   (hijack_spec (NewLoggingResponseWriter ⟨"a", "b", "c", "d"⟩ true)
      (some 1, some 2, none)).2 rfl⟩

/-- C2: For every invocation of LogMiddleware.ServeHTTP, the deferred
finalizing Log call — with the writer's current status, the elapsed duration,
its sent-byte count and its compression ratio — executes exactly once before
control returns, on every exit path of the downstream handler: normal return
or propagating panic; the panic still propagates afterwards. -/
theorem serveHTTP_finalizes (req : HttpRequest) (ch : Bool)
    (handler : LoggingResponseWriter → Outcome) (now : String) (ns : Nat)
    (res : Outcome) (w1 : LoggingResponseWriter)
    (hw1 : w1 = (handler (NewLoggingResponseWriter req ch)).state)
    (hres : res = LogMiddleware.serveHTTP req ch handler now ns) :
    res.state = w1.log now w1.status ns w1.sentBytes w1.compressionRatioStr ""
    ∧ res.isAbrupt = (handler (NewLoggingResponseWriter req ch)).isAbrupt
    ∧ res.state.wrote = true
    ∧ (w1.wrote = false →
        res.state.logRecs
          = w1.logRecs
            ++ [w1.mkLogRec now w1.status ns w1.sentBytes w1.compressionRatioStr ""])
    ∧ (w1.wrote = true → res.state.logRecs = w1.logRecs) := by
  subst hres
  subst hw1
  cases hh : handler (NewLoggingResponseWriter req ch) with
  | normal wx =>
    have hs : LogMiddleware.serveHTTP req ch handler now ns
        = Outcome.normal (wx.log now wx.status ns wx.sentBytes wx.compressionRatioStr "") := by
      simp only [LogMiddleware.serveHTTP, hh]
    rw [hs]
    exact ⟨rfl, rfl, log_wrote wx now wx.status ns wx.sentBytes wx.compressionRatioStr "",
      fun hwf => log_of_not_wrote wx now wx.status ns wx.sentBytes wx.compressionRatioStr "" hwf,
      fun hwt => log_logRecs_of_wrote wx now wx.status ns wx.sentBytes wx.compressionRatioStr "" hwt⟩
  | abrupt wx =>
    have hs : LogMiddleware.serveHTTP req ch handler now ns
        = Outcome.abrupt (wx.log now wx.status ns wx.sentBytes wx.compressionRatioStr "") := by
      simp only [LogMiddleware.serveHTTP, hh]
    rw [hs]
    exact ⟨rfl, rfl, log_wrote wx now wx.status ns wx.sentBytes wx.compressionRatioStr "",
      fun hwf => log_of_not_wrote wx now wx.status ns wx.sentBytes wx.compressionRatioStr "" hwf,
      fun hwt => log_logRecs_of_wrote wx now wx.status ns wx.sentBytes wx.compressionRatioStr "" hwt⟩

/-- Witness for C2: a handler that writes two bytes and then fails abruptly;
the middleware still emits exactly one record and the failure propagates. -/
theorem serveHTTP_finalizes_witness :
    (LogMiddleware.serveHTTP ⟨"h:1", "GET", "/w", "ua"⟩ false
        (fun w => Outcome.abrupt ((w.write "hi" 2 none).1)) "t" 3000000).state.wrote = true
    ∧ (LogMiddleware.serveHTTP ⟨"h:1", "GET", "/w", "ua"⟩ false
        (fun w => Outcome.abrupt ((w.write "hi" 2 none).1)) "t" 3000000).isAbrupt = true
    ∧ (LogMiddleware.serveHTTP ⟨"h:1", "GET", "/w", "ua"⟩ false
        (fun w => Outcome.abrupt ((w.write "hi" 2 none).1)) "t" 3000000).state.logRecs.length
        = 1 := by
  have h := serveHTTP_finalizes ⟨"h:1", "GET", "/w", "ua"⟩ false
    (fun w => Outcome.abrupt ((w.write "hi" 2 none).1)) "t" 3000000
    (LogMiddleware.serveHTTP ⟨"h:1", "GET", "/w", "ua"⟩ false
      (fun w => Outcome.abrupt ((w.write "hi" 2 none).1)) "t" 3000000)
    ((fun w => Outcome.abrupt ((w.write "hi" 2 none).1))
      (NewLoggingResponseWriter ⟨"h:1", "GET", "/w", "ua"⟩ false)).state
    rfl rfl
  refine ⟨h.2.2.1, h.2.1, ?_⟩
  rw [h.2.2.2.1 (by decide)]
  rfl

/-- C5: For every error value passed to LogError, including a multiply-wrapped
one, the message that is logged is the message of the innermost error of the
unwrap chain — the root cause reached by repeatedly unwrapping until no
further cause exists — not the outer wrapping text. -/
theorem logError_root_cause (e : GoError) (w : LoggingResponseWriter) (now : String)
    (st : Int) :
    UnwrapReaches e (innermost e)
    ∧ (innermost e).unwrap = none
    ∧ rootCauseMsg e = (innermost e).errMsg
    ∧ (w.wrote = false →
        (w.logError now st e).logRecs
          = w.logRecs ++ [w.mkLogRec now st 0 0 "-" ((innermost e).errMsg)]) := by
  refine ⟨unwrapReaches_innermost e, innermost_unwrap_none e, rootCauseMsg_eq_innermost e, ?_⟩
  intro h
  rw [logError_logRecs, log_of_not_wrote w now st 0 0 "-" (rootCauseMsg e) h,
    rootCauseMsg_eq_innermost e]

/-- Witness for C5: an error wrapping "disk full" wrapping "ENOSPC" under
"upload failed" logs the message ENOSPC. -/
theorem logError_root_cause_witness :
    UnwrapReaches
      (GoError.wrap "upload failed" (GoError.wrap "disk full" (GoError.base "ENOSPC")))
      (innermost
        (GoError.wrap "upload failed" (GoError.wrap "disk full" (GoError.base "ENOSPC"))))
    ∧ rootCauseMsg
        (GoError.wrap "upload failed" (GoError.wrap "disk full" (GoError.base "ENOSPC")))
        = "ENOSPC"
    ∧ ((NewLoggingResponseWriter ⟨"a:1", "GET", "/", "u"⟩ false).logError "t" 500
          (GoError.wrap "upload failed"
            (GoError.wrap "disk full" (GoError.base "ENOSPC")))).logRecs.map LogRec.message
        = ["ENOSPC"] := by
  have h := logError_root_cause
    (GoError.wrap "upload failed" (GoError.wrap "disk full" (GoError.base "ENOSPC")))
    (NewLoggingResponseWriter ⟨"a:1", "GET", "/", "u"⟩ false) "t" 500
  refine ⟨h.1, by decide, ?_⟩
  rw [h.2.2.2 rfl]
  rfl

/-- C6: Every call to LogError triggers a log with zero duration, zero bytes
and the sentinel ratio and the root-cause message, then records the given
status; it writes the client-facing error body (the status plus the quoted
root-cause message) to the real sink if and only if sentBytes is 0 at the
time of the call. -/
theorem logError_spec (w : LoggingResponseWriter) (now : String) (st : Int) (e : GoError)
    (w2 : LoggingResponseWriter) (hw2 : w2 = w.logError now st e) :
    w2.status = st
    ∧ w2.sentBytes = w.sentBytes
    ∧ (w.wrote = false →
        w2.logRecs = w.logRecs ++ [w.mkLogRec now st 0 0 "-" (rootCauseMsg e)])
    ∧ (w.wrote = true → w2.logRecs = w.logRecs)
    ∧ (w.sentBytes = 0 →
        w2.sinkEvents = w.sinkEvents ++ [SinkEvent.errorBody st (goQuote (rootCauseMsg e))])
    ∧ (¬ w.sentBytes = 0 → w2.sinkEvents = w.sinkEvents) := by
  subst hw2
  refine ⟨logError_status w now st e, logError_sentBytes w now st e, ?_, ?_,
    logError_sinkEvents_zero w now st e, logError_sinkEvents_nonzero w now st e⟩
  · intro h
    rw [logError_logRecs, log_of_not_wrote w now st 0 0 "-" (rootCauseMsg e) h]
  · intro h
    rw [logError_logRecs, log_logRecs_of_wrote w now st 0 0 "-" (rootCauseMsg e) h]

/-- Witness for C6: LogError 503 on a fresh writer records status 503, logs a
zero-duration zero-byte sentinel record, and sends the quoted error body. -/
theorem logError_spec_witness :
    ((NewLoggingResponseWriter ⟨"a:1", "GET", "/", "u"⟩ false).logError "t" 503
        (GoError.base "boom")).status = 503
    ∧ ((NewLoggingResponseWriter ⟨"a:1", "GET", "/", "u"⟩ false).logError "t" 503
          (GoError.base "boom")).logRecs
        = [] ++ [(NewLoggingResponseWriter ⟨"a:1", "GET", "/", "u"⟩ false).mkLogRec
            "t" 503 0 0 "-" "boom"]
    ∧ ((NewLoggingResponseWriter ⟨"a:1", "GET", "/", "u"⟩ false).logError "t" 503
          (GoError.base "boom")).sinkEvents
        = [] ++ [SinkEvent.errorBody 503 (goQuote "boom")] := by
  have h := logError_spec (NewLoggingResponseWriter ⟨"a:1", "GET", "/", "u"⟩ false) "t" 503
    (GoError.base "boom")
    ((NewLoggingResponseWriter ⟨"a:1", "GET", "/", "u"⟩ false).logError "t" 503
      (GoError.base "boom")) rfl
  exact ⟨h.1, h.2.2.1 rfl, h.2.2.2.2.1 rfl⟩

/-- C8 counterexample: for the bracketed IPv6 remote address
[2001:db8::1]:443, the code takes the prefix before the first colon and logs
the field "[2001", while the host-only form with the trailing port stripped is
"[2001:db8::1]" — so the logged field is not the host-only form. -/
theorem remoteHost_counterexample :
    hostPart "[2001:db8::1]:443" = "[2001"
    ∧ stripPortSuffix "[2001:db8::1]:443" = "[2001:db8::1]"
    ∧ ¬ hostPart "[2001:db8::1]:443" = stripPortSuffix "[2001:db8::1]:443"
    ∧ ((NewLoggingResponseWriter reqV6 false).log "t" 200 0 0 "-" "").logRecs.map
        LogRec.remoteHost = ["[2001"] := by
  refine ⟨by decide, by decide, by decide, ?_⟩
  decide

/-- C8 amended: the remote-address field embedded in the emitted log record is
the prefix of the request's remote address before its first colon (the whole
address when it has no colon); for a host:port address with a colon-free host
this equals the host with the port stripped. -/
theorem remoteHost_amended (h p s : String) (w : LoggingResponseWriter) (now : String)
    (st : Int) (d byt : Nat) (ratio msg : String) :
    (w.wrote = false →
      (w.log now st d byt ratio msg).logRecs.map LogRec.remoteHost
        = w.logRecs.map LogRec.remoteHost ++ [hostPart w.req.remoteAddr])
    ∧ ((':' ∉ h.data) → w.req.remoteAddr = h ++ ":" ++ p →
        hostPart w.req.remoteAddr = h)
    ∧ ((':' ∉ s.data) → hostPart s = s) := by
  refine ⟨?_, ?_, ?_⟩
  · intro hw
    rw [log_of_not_wrote w now st d byt ratio msg hw, List.map_append]
    rfl
  · intro hnc heq
    rw [heq]
    unfold hostPart
    rw [data_append, data_append]
    rw [show (":" : String).data = [':'] from rfl]
    rw [List.append_assoc, List.singleton_append]
    rw [splitFirstColon_before h.data p.data hnc]
  · intro hnc
    unfold hostPart
    rw [splitFirstColon_no_colon s.data hnc]

/-- Witness for C8 amended: an IPv4 host:port address is stripped to the host,
a colon-free address is unchanged, and the logged field is that prefix. -/
theorem remoteHost_amended_witness :
    ((NewLoggingResponseWriter ⟨"1.2.3.4:80", "GET", "/", "u"⟩ false).log
        "t" 200 0 0 "-" "").logRecs.map LogRec.remoteHost
      = [] ++ [hostPart "1.2.3.4:80"]
    ∧ hostPart "1.2.3.4:80" = "1.2.3.4"
    ∧ hostPart "localhost" = "localhost" := by
  have hh := remoteHost_amended "1.2.3.4" "80" "localhost"
    (NewLoggingResponseWriter ⟨"1.2.3.4:80", "GET", "/", "u"⟩ false) "t" 200 0 0 "-" ""
  exact ⟨hh.1 rfl, hh.2.1 (by decide) rfl, hh.2.2 (by decide)⟩

/-- C9: Every record Log emits renders as exactly one line with the fields in
the order timestamp, remote host, method, quoted URL, status, duration in
milliseconds, byte count, ratio-or-dash, quoted user agent, quoted message;
the user agent and message are escaped so that embedded quotes, backslashes
and control characters (including newlines) cannot break the record across
lines. -/
theorem log_record_single_line (r : LogRec) (s : String) (c : Char)
    (hts : noNewlineB r.timestamp = true) (hhost : noNewlineB r.remoteHost = true)
    (hm : noNewlineB r.method = true) (hu : noNewlineB r.url = true)
    (hr : noNewlineB r.ratio = true) :
    oneLineB (renderRec r) = true
    ∧ renderRec r
        = specLogLine r.timestamp r.remoteHost r.method r.url (intRepr r.status)
            (natRepr r.durationMs) (natRepr r.bytes) r.ratio (goQuote r.userAgent)
            (goQuote r.message)
    ∧ (c ∈ (goQuote s).data → (0x20 ≤ c.toNat ∧ c.toNat ≤ 0x7E) ∧ ¬ c = '\n') := by
  refine ⟨?_, rfl, ?_⟩
  · unfold renderRec
    apply oneLineB_of_noNL
    simp only [noNL_append_eq, Bool.and_eq_true]
    repeat' apply And.intro
    all_goals first
      | exact hts
      | exact hhost
      | exact hm
      | exact hu
      | exact hr
      | exact noNL_natRepr _
      | exact noNL_intRepr _
      | exact noNL_goQuote r.userAgent
      | exact noNL_goQuote r.message
      | decide
  · intro hc
    exact ⟨goQuote_printable s c hc, printable_ne_newline (goQuote_printable s c hc).1⟩

/-- Witness for C9 at a record whose user agent and message contain quotes,
backslashes and newlines. -/
theorem log_record_single_line_witness :
    oneLineB (renderRec demoLogRec) = true
    ∧ renderRec demoLogRec
        = specLogLine demoLogRec.timestamp demoLogRec.remoteHost demoLogRec.method
            demoLogRec.url (intRepr demoLogRec.status) (natRepr demoLogRec.durationMs)
            (natRepr demoLogRec.bytes) demoLogRec.ratio (goQuote demoLogRec.userAgent)
            (goQuote demoLogRec.message) := by
  have h := log_record_single_line demoLogRec "x" 'y' (by decide) (by decide) (by decide)
    (by decide) (by decide)
  exact ⟨h.1, h.2.1⟩

/-- C10: In every state reachable through the public operations of a
LoggingResponseWriter, the wroteBytes counter is 0 because no operation ever
increments it; consequently CompressionRatio returns the sentinel in every
reachable state, and the finalizing log record ServeHTTP emits always carries
the ratio field dash. -/
theorem wroteBytes_always_zero (req : HttpRequest) (ch : Bool) (ops : List LrwOp)
    (now : String) (ns : Nat) (w1 : LoggingResponseWriter)
    (hw1 : w1 = (NewLoggingResponseWriter req ch).applyOps ops) :
    w1.wroteBytes = 0
    ∧ w1.compressionRatioStr = "-"
    ∧ LogMiddleware.serveHTTP req ch (fun w => Outcome.normal (w.applyOps ops)) now ns
        = Outcome.normal (w1.log now w1.status ns w1.sentBytes "-" "")
    ∧ (w1.wrote = false →
        (w1.log now w1.status ns w1.sentBytes "-" "").logRecs.map LogRec.ratio
          = w1.logRecs.map LogRec.ratio ++ ["-"]) := by
  have h0 : w1.wroteBytes = 0 := by
    rw [hw1, applyOps_wroteBytes]
    rfl
  have hratio := compressionRatio_of_wroteBytes_zero w1 h0
  refine ⟨h0, hratio, ?_, ?_⟩
  · have hs : LogMiddleware.serveHTTP req ch (fun w => Outcome.normal (w.applyOps ops)) now ns
        = Outcome.normal (((NewLoggingResponseWriter req ch).applyOps ops).log now
            ((NewLoggingResponseWriter req ch).applyOps ops).status ns
            ((NewLoggingResponseWriter req ch).applyOps ops).sentBytes
            ((NewLoggingResponseWriter req ch).applyOps ops).compressionRatioStr "") := rfl
    rw [hs, ← hw1, hratio]
  · intro hwf
    rw [log_of_not_wrote w1 now w1.status ns w1.sentBytes "-" "" hwf, List.map_append]
    rfl

/-- Witness for C10: after a header write and a three-byte body write,
wroteBytes is still 0, the ratio is the sentinel, and the finalizing record's
ratio field is dash. -/
theorem wroteBytes_always_zero_witness :
    ((NewLoggingResponseWriter ⟨"c:1", "GET", "/y", "u"⟩ false).applyOps
        [LrwOp.opWriteHeader 404, LrwOp.opWrite "abc" 3 none]).wroteBytes = 0
    ∧ ((NewLoggingResponseWriter ⟨"c:1", "GET", "/y", "u"⟩ false).applyOps
        [LrwOp.opWriteHeader 404, LrwOp.opWrite "abc" 3 none]).compressionRatioStr = "-"
    ∧ (((NewLoggingResponseWriter ⟨"c:1", "GET", "/y", "u"⟩ false).applyOps
          [LrwOp.opWriteHeader 404, LrwOp.opWrite "abc" 3 none]).log "t" 404 0 3 "-"
          "").logRecs.map LogRec.ratio
        = [] ++ ["-"] := by
  have h := wroteBytes_always_zero ⟨"c:1", "GET", "/y", "u"⟩ false
    [LrwOp.opWriteHeader 404, LrwOp.opWrite "abc" 3 none] "t" 0
    ((NewLoggingResponseWriter ⟨"c:1", "GET", "/y", "u"⟩ false).applyOps
      [LrwOp.opWriteHeader 404, LrwOp.opWrite "abc" 3 none]) rfl
  exact ⟨h.1, h.2.1, h.2.2.2 (by decide)⟩
